import Mathlib

/-!
Verification of the cli-batteries logging/telemetry core.

The Rust sources modelled here are src/logging.rs (Options::init, the
verbosity table, the log-filter handling and the FLAME_FLUSH_GUARD once
cell) and src/trace/otlp_format.rs (OtlpFormatter::format_event).

Options::init composes values of tracing_subscriber::filter::Targets.
That type lives in the external tracing-subscriber crate; its behaviour
is reproduced here from the crate's implementation, because logging.rs
defers the combination semantics to it:
  - a Targets is a DirectiveSet of StaticDirective values kept sorted in
    most-specific-first order; the order compares, reversed, the tuple
    (target length, number of field names, target, field names) and does
    NOT include the level;
  - DirectiveSet::add binary-searches that order and REPLACES an existing
    directive that compares equal (same target and field names), so a
    later add with the same target overwrites the earlier level;
  - Targets::with_default adds a directive with target None;
  - Targets::with_targets extends via the IntoIterator instance of
    Targets whose iterator filter-maps directives through
    `d.target.map (t => (t, d.level))`, i.e. it OMITS the default
    (target = None) directive;
  - matching picks the first directive, in the sorted order, whose target
    is a plain string prefix of the event's target and whose field names
    are all present on the event; the directive enables the event iff the
    directive's LevelFilter is at least as verbose as the event's Level;
    when no directive matches, the event is disabled.
-/

namespace CliBatteries

/-- tracing Level. In verbosity rank ERROR is the least verbose and TRACE
the most verbose. -/
inductive Level where
  | trace
  | debug
  | info
  | warn
  | error
deriving DecidableEq, Repr

/-- tracing LevelFilter: a Level or OFF. -/
inductive LevelFilter where
  | off
  | error
  | warn
  | info
  | debug
  | trace
deriving DecidableEq, Repr

/-- Verbosity rank of a Level (ERROR = 1 .. TRACE = 5), mirroring the
filter_cmp ordering of tracing_core::Level. -/
def Level.verb : Level → Nat
  | .error => 1
  | .warn => 2
  | .info => 3
  | .debug => 4
  | .trace => 5

/-- Verbosity rank of a LevelFilter (OFF = 0 .. TRACE = 5). -/
def LevelFilter.verb : LevelFilter → Nat
  | .off => 0
  | .error => 1
  | .warn => 2
  | .info => 3
  | .debug => 4
  | .trace => 5

/-- The LevelFilter corresponding to a Level (Into conversion in
tracing_core). -/
def LevelFilter.ofLevel : Level → LevelFilter
  | .error => .error
  | .warn => .warn
  | .info => .info
  | .debug => .debug
  | .trace => .trace

/-- directive.level >= event.level in the tracing sense: the filter is at
least as verbose as the event. -/
def filterGe (f : LevelFilter) (l : Level) : Bool := l.verb ≤ f.verb

/-- Is the char list p a prefix of l (byte-for-byte, like str::starts_with
restricted to exact char comparison)? -/
def listIsPre (p l : List Char) : Bool :=
  match p with
  | [] => true
  | x :: xs =>
    match l with
    | [] => false
    | y :: ys => x == y && listIsPre xs ys

/-- String prefix test: strIsPre p s is true iff p is a prefix of s. -/
def strIsPre (p s : String) : Bool := listIsPre p.data s.data

/-- One directive of a tracing_subscriber Targets filter
(filter::directive::StaticDirective): an optional target prefix, a list
of required field names, and a maximum verbosity. -/
structure StaticDirective where
  target : Option String
  fieldNames : List String
  level : LevelFilter
deriving DecidableEq, Repr

/-- Rust Ord for Option String: None is less than Some, Some compares the
payloads. -/
def cmpOptStr : Option String → Option String → Ordering
  | none, none => .eq
  | none, some _ => .lt
  | some _, none => .gt
  | some a, some b => compare a b

/-- Rust Ord for Option Nat (used on target lengths). -/
def cmpOptNat : Option Nat → Option Nat → Ordering
  | none, none => .eq
  | none, some _ => .lt
  | some _, none => .gt
  | some a, some b => compare a b

/-- Rust lexicographic Ord on lists of strings (slice cmp). -/
def cmpStrList : List String → List String → Ordering
  | [], [] => .eq
  | [], _ :: _ => .lt
  | _ :: _, [] => .gt
  | a :: as, b :: bs => (compare a b).then (cmpStrList as bs)

/-- The specificity ordering of StaticDirective: compare (target length,
field count, target, field names) and reverse, so that more specific
directives sort first. The level is NOT part of the comparison, which is
what makes DirectiveSet::add replace a same-target directive. -/
def StaticDirective.specCmp (a b : StaticDirective) : Ordering :=
  ((cmpOptNat (a.target.map String.length) (b.target.map String.length)).then
    ((compare a.fieldNames.length b.fieldNames.length).then
      ((cmpOptStr a.target b.target).then
        (cmpStrList a.fieldNames b.fieldNames)))).swap

/-- A Targets filter is its directive list, kept sorted by specCmp
(most specific first), as in DirectiveSet. -/
abbrev Targets := List StaticDirective

/-- DirectiveSet::add: insert in sorted position; when a directive with
the same target and field names is present, replace it (later add wins). -/
def addDirective : Targets → StaticDirective → Targets
  | [], d => [ d ]
  | x :: xs, d =>
    match d.specCmp x with
    | .lt => d :: x :: xs
    | .eq => d :: xs
    | .gt => x :: addDirective xs d

/-- Targets::new. -/
def Targets.new : Targets := []

/-- Targets::with_default: adds the directive with target None. -/
def Targets.withDefault (t : Targets) (lv : LevelFilter) : Targets :=
  addDirective t { target := none, fieldNames := [], level := lv }

/-- Targets::with_target. -/
def Targets.withTarget (t : Targets) (name : String) (lv : LevelFilter) : Targets :=
  addDirective t { target := some name, fieldNames := [], level := lv }

/-- The IntoIterator instance of Targets: yields (target, level) pairs of
the explicit-target directives only; the default (target = None)
directive is filtered out. -/
def Targets.intoIterList (t : Targets) : List (String × LevelFilter) :=
  t.filterMap (fun d => d.target.map (fun tg => (tg, d.level)))

/-- Targets::with_targets self other, i.e. extending self with the
explicit-target directives of other (each re-added through
DirectiveSet::add, hence replacing same-target directives of self). -/
def Targets.withTargets (a b : Targets) : Targets :=
  (Targets.intoIterList b).foldl
    (fun acc p => addDirective acc { target := some p.1, fieldNames := [], level := p.2 }) a

/-- StaticDirective::cares_about for an event: the directive's target (if
any) must be a string prefix of the event target, and all of the
directive's field names must be fields of the event. -/
def caresAboutEvent (d : StaticDirective) (target : String) (eventFields : List String) : Bool :=
  (match d.target with
   | none => true
   | some tg => strIsPre tg target) &&
  d.fieldNames.all (fun n => eventFields.contains n)

/-- DirectiveSet::enabled for an event: the first directive, in
most-specific-first order, that cares about the event decides; it enables
the event iff its LevelFilter is at least the event Level. No matching
directive disables the event. -/
def Targets.enabledFor (t : Targets) (target : String) (eventFields : List String) (l : Level) : Bool :=
  match t.find? (fun d => caresAboutEvent d target eventFields) with
  | some d => filterGe d.level l
  | none => false

/-! ### The filter-expression parser (Targets FromStr) -/

/-- Rust char::to_ascii_lowercase. -/
def asciiLower (c : Char) : Char :=
  if 'A' ≤ c ∧ c ≤ 'Z' then Char.ofNat (c.toNat + 32) else c

/-- ASCII lowercasing of a string. -/
def strLower (s : String) : String := String.mk (s.data.map asciiLower)

/-- str::split on a single separator char: the separator is dropped and
empty segments are kept, so splitting the empty string yields one empty
segment. -/
def splitOnCharAux (sep : Char) : List Char → List Char → List (List Char)
  | [], acc => [ acc.reverse ]
  | c :: cs, acc =>
    if c == sep then acc.reverse :: splitOnCharAux sep cs []
    else splitOnCharAux sep cs (c :: acc)

/-- String split on a separator char. -/
def splitOnChar (sep : Char) (s : String) : List String :=
  (splitOnCharAux sep s.data []).map String.mk

/-- str::split on the two-char separator used for field lists in filter
directives (an opening bracket followed by an opening brace), scanning
left to right without overlap. -/
def splitOnBrk : List Char → List Char → List (List Char)
  | [], acc => [ acc.reverse ]
  | [ c ], acc => [ (c :: acc).reverse ]
  | a :: b :: cs, acc =>
    if a == '[' && b == '\x7b' then acc.reverse :: splitOnBrk cs []
    else splitOnBrk (b :: cs) (a :: acc)

/-- str::parse::<usize>: an optional leading plus sign followed by one or
more ASCII digits. (Values that overflow usize fail to parse in Rust;
here they parse to a large Nat, which the level table below rejects just
the same.) -/
def parseUsize (s : String) : Option Nat :=
  let cs := if listIsPre [ '+' ] s.data then s.data.drop 1 else s.data
  if cs.isEmpty then none
  else if cs.all (fun c => c.isDigit) then
    some (cs.foldl (fun n c => n * 10 + (c.toNat - 48)) 0)
  else none

/-- LevelFilter::from_str: a number 0..5 or a case-insensitive level name
(including "off"). -/
def parseLevelFilter (s : String) : Option LevelFilter :=
  (match parseUsize s with
   | some 0 => some .off
   | some 1 => some .error
   | some 2 => some .warn
   | some 3 => some .info
   | some 4 => some .debug
   | some 5 => some .trace
   | _ => none)
  <|>
  (let t := strLower s
   if t = "error" then some .error
   else if t = "warn" then some .warn
   else if t = "info" then some .info
   else if t = "debug" then some .debug
   else if t = "trace" then some .trace
   else if t = "off" then some .off
   else none)

theorem listIsPre_length {p l : List Char} (h : listIsPre p l = true) :
    p.length ≤ l.length := by
  induction p generalizing l with
  | nil => simp
  | cons a as ih =>
    cases l with
    | nil => simp [listIsPre] at h
    | cons b bs =>
      simp only [listIsPre, Bool.and_eq_true] at h
      have := ih h.2
      simp [List.length_cons]
      omega

/-- str::trim_end_matches with the two-char pattern closing a field list
(a closing brace followed by a closing bracket): repeatedly strip that
suffix. -/
def trimEndBrk (l : List Char) : List Char :=
  if h : listIsPre [ ']', '\x7d' ] l.reverse = true then
    trimEndBrk (l.take (l.length - 2))
  else l
termination_by l.length
decreasing_by
  have h2 := listIsPre_length h
  simp at h2
  simp [List.length_take]
  omega

/-- StaticDirective::from_str: parses one filter directive of the forms
target=level, target[fields]=level, bare level, or bare target (the bare
target form never fails and defaults to TRACE). -/
def parseStaticDirective (s : String) : Except String StaticDirective :=
  match splitOnChar '=' s with
  | [ part0 ] =>
    match parseLevelFilter part0 with
    | some lv => .ok { target := none, fieldNames := [], level := lv }
    | none => .ok { target := some part0, fieldNames := [], level := .trace }
  | [ part0, part1 ] =>
    match splitOnBrk part0.data [] with
    | [ tgt ] =>
      match parseLevelFilter part1 with
      | some lv => .ok { target := some (String.mk tgt), fieldNames := [], level := lv }
      | none => .error "invalid level filter"
    | [ tgt, maybeFields ] =>
      if listIsPre [ ']', '\x7d' ] maybeFields.reverse then
        let fields :=
          ((splitOnCharAux ',' (trimEndBrk maybeFields) []).map String.mk).filter
            (fun f => f ≠ "")
        match parseLevelFilter part1 with
        | some lv => .ok { target := some (String.mk tgt), fieldNames := fields, level := lv }
        | none => .error "invalid level filter"
      else .error "expected fields list to end with a closing brace and bracket"
    | _ => .error "too many field list openers in filter directive, expected 0 or 1"
  | _ => .error "too many equal signs in filter directive, expected 0 or 1"

/-- Targets::from_str: split on commas, drop empty segments, parse each
directive (failing on the first malformed one), then fold the directives
into an empty set through DirectiveSet::add. -/
def parseTargets (s : String) : Except String Targets :=
  match (splitOnChar ',' s).filter (fun p => p ≠ "") |>.mapM parseStaticDirective with
  | .error e => .error e
  | .ok ds => .ok (ds.foldl addDirective Targets.new)

/-! ### Options::init (src/logging.rs) -/

/-- str::replace of dashes by underscores, applied to crate names. -/
def underscorify (s : String) : String :=
  String.mk (s.data.map (fun c => if c = '-' then '_' else c))

/-- The fixed verbosity table of Options::init: verbose count to
(global default level, own-targets level). -/
def verbosityLevels : Nat → LevelFilter × LevelFilter
  | 0 => (.error, .info)
  | 1 => (.info, .info)
  | 2 => (.info, .debug)
  | 3 => (.info, .trace)
  | 4 => (.debug, .trace)
  | _ => (.trace, .trace)

/-- The verbosity-derived filter of Options::init:
Targets::new().with_default(all).with_target(pkg_name with underscores,
app).with_target(crate_name with underscores, app). -/
def verbosityTargets (v : Nat) (pkgName crateName : String) : Targets :=
  Targets.withTarget
    (Targets.withTarget
      (Targets.withDefault Targets.new (verbosityLevels v).1)
      (underscorify pkgName) (verbosityLevels v).2)
    (underscorify crateName) (verbosityLevels v).2

/-- The log-filter handling of Options::init: an empty expression yields
Targets::new(), a non-empty one is parsed with Targets::from_str and a
parse failure is returned to the caller. -/
def logFilterStage (s : String) : Except String Targets :=
  if s = "" then Except.ok Targets.new else parseTargets s

/-- The effective filter of Options::init:
verbosity.with_targets(log_filter). -/
def effectiveTargets (v : Nat) (pkg crate logFilter : String) : Except String Targets :=
  (logFilterStage logFilter).map (fun b => Targets.withTargets (verbosityTargets v pkg crate) b)

/-- The CLI options consumed by Options::init (the fields the modelled
code paths read). -/
structure Options where
  verbose : Nat
  logFilter : String
  traceFlame : Option String
deriving DecidableEq, Repr

/-- The version information consumed by Options::init. -/
structure VersionInfo where
  pkgName : String
  crateName : String
deriving DecidableEq, Repr

/-- Errors of the modelled Options::init. -/
inductive InitError where
  | parseError (msg : String)
  | guardAlreadySet
deriving DecidableEq, Repr

/-- The process-global state touched by Options::init: the contents of
the FLAME_FLUSH_GUARD once cell. none means the cell is unset; some g
means it was set to g, where g is the optional flush guard (some unit
when a trace-flame file was configured). -/
structure InitState where
  flameGuard : Option (Option Unit)
deriving DecidableEq, Repr

/-- Options::init as a state transformer over the global once cell.
The filter expression is parsed first; a parse failure aborts before
anything else runs. Then the flame guard (present iff trace_flame was
given; the file open is modelled as succeeding) is stored in the once
cell, which fails if the cell is already set. The remaining pipeline
installation is modelled as succeeding and the effective Targets filter
is returned as the installed result. -/
def Options.init (o : Options) (ver : VersionInfo) (st : InitState) :
    Except InitError Targets × InitState :=
  match logFilterStage o.logFilter with
  | .error e => (Except.error (InitError.parseError e), st)
  | .ok lf =>
    match st.flameGuard with
    | some _ => (Except.error InitError.guardAlreadySet, st)
    | none =>
      (Except.ok
        (Targets.withTargets (verbosityTargets o.verbose ver.pkgName ver.crateName) lf),
       { flameGuard := some (o.traceFlame.map (fun _ => ())) })

/-! ### OtlpFormatter::format_event (src/trace/otlp_format.rs) -/

/-- JSON values, as far as the formatter manipulates them (string and
integer event-field values and null; floats are not modelled). -/
inductive JValue where
  | str (s : String)
  | num (n : Int)
  | jnull
deriving DecidableEq, Repr

/-- Value::as_str().unwrap_or_default(): the string payload of a JSON
string, and the empty string for anything else. -/
def JValue.asStrOrEmpty : JValue → String
  | .str s => s
  | _ => ""

/-- A JSON object as the formatter's attribute map: association list in
iteration order with key lookup. -/
abbrev JMap := List (String × JValue)

/-- Map lookup by key (serde_json::Map::get). -/
def mapGet (m : JMap) (k : String) : Option JValue :=
  (m.find? (fun p => p.1 == k)).map (fun p => p.2)

/-- Map insert (serde_json::Map::insert): overwrite the value of an
existing key in place, otherwise append the new entry. -/
def mapInsert (m : JMap) (k : String) (v : JValue) : JMap :=
  if m.any (fun p => p.1 == k) then
    m.map (fun p => if p.1 == k then (k, v) else p)
  else m ++ [ (k, v) ]

/-- Map extend (serde_json::Map::extend): insert every entry of the
second map in order, overwriting same-named keys of the first. -/
def mapExtend (m : JMap) (entries : JMap) : JMap :=
  entries.foldl (fun acc p => mapInsert acc p.1 p.2) m

/-- The value of the LAST occurrence of a key in an entry list (the one
that survives a left-to-right extend). -/
def lastLookup (entries : JMap) (k : String) : Option JValue :=
  (entries.reverse.find? (fun p => p.1 == k)).map (fun p => p.2)

/-- One span of the registry, as read by the formatter: the
process-local recycled numeric handle (span.id().into_u64()), the
externally-assigned OpenTelemetry span and trace ids found in the
OtelData extension (when present), and the FormattedFields extension
(kept here in already-parsed form; a missing extension models the
registry state the formatter treats as a bug). -/
structure SpanData where
  handle : Nat
  otelSpanId : Option Nat
  otelTraceId : Option Nat
  formattedFields : Option JMap
deriving DecidableEq, Repr

/-- One event together with the formatter context it is rendered in:
the metadata (level, span-kind flag, source location), the explicit
parent span (event.parent() resolved through ctx.span), the current
contextual span (ctx.lookup_current()), the event scope chain
(ctx.event_scope(), innermost span first), the thread name or rendered
thread id, and the serialized event fields in iteration order. -/
structure EventInput where
  level : Level
  isSpan : Bool
  modulePath : Option String
  file : Option String
  line : Option Nat
  explicitParent : Option SpanData
  currentSpan : Option SpanData
  chain : List SpanData
  threadName : Option String
  threadIdStr : String
  fields : JMap
deriving DecidableEq, Repr

/-- The severity mapping: level to (SeverityText, SeverityNumber). -/
def severityOf : Level → String × Nat
  | .trace => ("TRACE", 1)
  | .debug => ("DEBUG", 5)
  | .info => ("INFO", 9)
  | .warn => ("WARN", 13)
  | .error => ("ERROR", 17)

/-- event.parent().and_then(ctx.span).or_else(ctx.lookup_current): the
span the event is attributed to. -/
def resolveSpan (e : EventInput) : Option SpanData :=
  match e.explicitParent with
  | some s => some s
  | none => e.currentSpan

/-- The trace-id walk: the first span in the event scope (innermost
first) carrying an externally-assigned trace id. -/
def findTraceId (chain : List SpanData) : Option Nat :=
  chain.findSome? (fun s => s.otelTraceId)

/-- The span-id resolution: the externally-assigned id of the resolved
span when present, else that same span's process-local handle, else
none. -/
def findSpanId (e : EventInput) : Option Nat :=
  Option.or ((resolveSpan e).bind (fun s => s.otelSpanId))
    ((resolveSpan e).map (fun s => s.handle))

/-- Attribute steps before the event fields: source-location attributes
code.namespace / code.filepath / code.lineno (each omitted when the
metadata lacks it) followed by thread.name (the thread's name, or its
debug-rendered id when unnamed). -/
def baseAttributes (e : EventInput) : JMap :=
  mapInsert
    (match e.line with
     | some n => mapInsert
         (match e.file with
          | some f => mapInsert
              (match e.modulePath with
               | some m => mapInsert [] "code.namespace" (JValue.str m)
               | none => [])
              "code.filepath" (JValue.str f)
          | none =>
            match e.modulePath with
            | some m => mapInsert [] "code.namespace" (JValue.str m)
            | none => [])
         "code.lineno" (JValue.num n)
     | none =>
       match e.file with
       | some f => mapInsert
           (match e.modulePath with
            | some m => mapInsert [] "code.namespace" (JValue.str m)
            | none => [])
           "code.filepath" (JValue.str f)
       | none =>
         match e.modulePath with
         | some m => mapInsert [] "code.namespace" (JValue.str m)
         | none => [])
    "thread.name"
    (JValue.str (match e.threadName with
                 | some n => n
                 | none => e.threadIdStr))

/-- The field-name-directed renaming of the event-field merge: message
and log.target produce no attribute (message becomes the Body), the
legacy log-crate location fields are renamed to the code.* attributes,
and every other name passes through unchanged. -/
def renameField (k : String) : Option String :=
  if k == "message" then none
  else if k == "log.file" then some "code.filepath"
  else if k == "log.line" then some "code.lineno"
  else if k == "log.module_path" then some "code.namespace"
  else if k == "log.target" then none
  else some k

/-- The event-field merge: fold the serialized event fields into the
(body, attributes) pair. A message field replaces the body (taking the
string payload, or the empty string for non-strings); the log.* location
fields are inserted under their code.* names; log.target is dropped; any
other field is inserted under its own name. Insertions overwrite
same-named attributes already present. -/
def mergeEventFields (init : String × JMap) (fields : JMap) : String × JMap :=
  fields.foldl
    (fun ba p =>
      if p.1 == "message" then (p.2.asStrOrEmpty, ba.2)
      else if p.1 == "log.file" then (ba.1, mapInsert ba.2 "code.filepath" p.2)
      else if p.1 == "log.line" then (ba.1, mapInsert ba.2 "code.lineno" p.2)
      else if p.1 == "log.module_path" then (ba.1, mapInsert ba.2 "code.namespace" p.2)
      else if p.1 == "log.target" then (ba.1, ba.2)
      else (ba.1, mapInsert ba.2 p.1 p.2))
    init

/-- Failures of the modelled formatter: the missing-FormattedFields
programming-invariant violation (the expect in the source). -/
inductive FmtError where
  | invariantViolation
deriving DecidableEq, Repr

/-- The log record assembled by format_event before serialization. -/
structure OtlpRecord where
  timestamp : Int
  traceId : Option Nat
  spanId : Option Nat
  severityText : String
  severityNumber : Nat
  body : String
  attributes : JMap
deriving DecidableEq, Repr

/-- OtlpFormatter::format_event up to serialization: resolve the span
and trace ids, map the severity, build the base attributes, merge the
event fields, and — when the event is a span-lifecycle event with an
explicit parent span — extend the attributes with that span's
already-formatted field set (read from its extension; a missing
extension is the fatal invariant violation). The render-time timestamp
is passed in as now. -/
def formatEventRecord (e : EventInput) (now : Int) : Except FmtError OtlpRecord :=
  match
    (if e.isSpan then e.explicitParent else none).map (fun s => s.formattedFields)
  with
  | some none => Except.error FmtError.invariantViolation
  | some (some m) =>
    Except.ok
      { timestamp := now
        traceId := findTraceId e.chain
        spanId := findSpanId e
        severityText := (severityOf e.level).1
        severityNumber := (severityOf e.level).2
        body := (mergeEventFields ("", baseAttributes e) e.fields).1
        attributes := mapExtend (mergeEventFields ("", baseAttributes e) e.fields).2 m }
  | none =>
    Except.ok
      { timestamp := now
        traceId := findTraceId e.chain
        spanId := findSpanId e
        severityText := (severityOf e.level).1
        severityNumber := (severityOf e.level).2
        body := (mergeEventFields ("", baseAttributes e) e.fields).1
        attributes := (mergeEventFields ("", baseAttributes e) e.fields).2 }

/-! ### Serialization of the record to one JSON line -/

/-- The list of lowercase hex digit characters. -/
def hexCharList : List Char :=
  [ '0', '1', '2', '3' ] ++ [ '4', '5', '6', '7' ]
    ++ [ '8', '9', 'a', 'b' ] ++ [ 'c', 'd', 'e', 'f' ]

/-- Hex digit characters (lowercase, as Rust's LowerHex). Indices above
15 are unreachable from remainders and default to the zero digit. -/
def hexDigitChar (n : Nat) : Char := hexCharList.getD n '0'

/-- The digits of n in base b, most significant first (no padding), as
Rust's integer formatting produces them. Degenerate bases below 2 give a
single digit. -/
def natDigitsB (b : Nat) (n : Nat) : List Char :=
  if _h : b ≤ 1 ∨ n < b then [ hexDigitChar (n % b) ]
  else natDigitsB b (n / b) ++ [ hexDigitChar (n % b) ]
termination_by n
decreasing_by
  exact Nat.div_lt_self (by omega) (by omega)

/-- Rust formatting with width w, zero padding, lowercase hex: pad the
hex digits of n on the left with zeros up to width w (never truncating). -/
def hexPad (w : Nat) (n : Nat) : String :=
  String.mk (List.replicate (w - (natDigitsB 16 n).length) '0' ++ natDigitsB 16 n)

/-- Decimal rendering of a Nat. -/
def natToDec (n : Nat) : String := String.mk (natDigitsB 10 n)

/-- Decimal rendering of an Int (Rust Display for integers). -/
def intToDec (i : Int) : String :=
  if i < 0 then "-" ++ natToDec i.natAbs else natToDec i.natAbs

/-- serde_json string escaping of one character: quote, backslash and
the common control characters get two-character escapes, other control
characters a hex escape, anything else passes through. -/
def escChar (c : Char) : String :=
  if c = '\"' then "\\\""
  else if c = '\\' then "\\\\"
  else if c = '\n' then "\\n"
  else if c = '\r' then "\\r"
  else if c = '\t' then "\\t"
  else if c.toNat < 32 then "\\u" ++ hexPad 4 c.toNat
  else String.mk [ c ]

/-- serde_json escaping of a string body. -/
def jsonEscape : List Char → String
  | [] => ""
  | c :: cs => escChar c ++ jsonEscape cs

/-- A quoted JSON string literal. -/
def jsonStr (s : String) : String := "\"" ++ jsonEscape s.data ++ "\""

/-- Join rendered pieces with a separator. -/
def joinSep (sep : String) : List String → String
  | [] => ""
  | [ x ] => x
  | x :: xs => x ++ sep ++ joinSep sep xs

/-- Serialization of an attribute value. -/
def renderJValue : JValue → String
  | .str s => jsonStr s
  | .num n => intToDec n
  | .jnull => "null"

/-- Serialization of the attribute map as a JSON object in iteration
order. -/
def renderAttrs (m : JMap) : String :=
  "\x7b" ++ joinSep "," (m.map (fun p => jsonStr p.1 ++ ":" ++ renderJValue p.2)) ++ "\x7d"

/-- The serialize_map entry sequence of format_event: Timestamp as a
string-formatted decimal, TraceId and SpanId only when resolved (32 and
16 zero-padded lowercase hex digits), severity duplicating SeverityText,
SeverityNumber, Body, Attributes. -/
def recordEntries (r : OtlpRecord) : List (String × String) :=
  [ ("Timestamp", "\"" ++ intToDec r.timestamp ++ "\"") ]
  ++ (match r.traceId with
      | some t => [ ("TraceId", "\"" ++ hexPad 32 t ++ "\"") ]
      | none => [])
  ++ (match r.spanId with
      | some sid => [ ("SpanId", "\"" ++ hexPad 16 sid ++ "\"") ]
      | none => [])
  ++ [ ("severity", jsonStr r.severityText),
       ("SeverityText", jsonStr r.severityText),
       ("SeverityNumber", natToDec r.severityNumber),
       ("Body", jsonStr r.body),
       ("Attributes", renderAttrs r.attributes) ]

/-- The serialized line: one JSON object over the entry sequence,
terminated by the final writeln newline. -/
def renderLine (r : OtlpRecord) : String :=
  "\x7b" ++ joinSep "," ((recordEntries r).map (fun p => "\"" ++ p.1 ++ "\":" ++ p.2)) ++ "\x7d"
    ++ "\n"

/-- The whole formatter: record assembly followed by serialization. -/
def formatEvent (e : EventInput) (now : Int) : Except FmtError String :=
  (formatEventRecord e now).map renderLine

/-- Does the event field p contribute, after renaming, an attribute under
key k? -/
def renamesTo (p : String × JValue) (k : String) : Bool :=
  match renameField p.1 with
  | some k2 => k2 == k
  | none => false

/-- Strings without a raw newline character. -/
abbrev NLFree (s : String) : Prop := '\n' ∉ s.data

/-! ### Concrete inputs used by counterexamples and witnesses -/

/-- A parent span whose formatted field set binds x to 2. -/
def c2Span : SpanData :=
  { handle := 9, otelSpanId := none, otelTraceId := none,
    formattedFields := some [ ("x", JValue.num 2) ] }

/-- A span-boundary event with field x bound to 1 inside c2Span. -/
def c2Event : EventInput :=
  { level := .info, isSpan := true, modulePath := none, file := none, line := none,
    explicitParent := some c2Span, currentSpan := none, chain := [],
    threadName := some "main", threadIdStr := "",
    fields := [ ("x", JValue.num 1) ] }

/-- The record format_event produces for c2Event. -/
def c2Record : OtlpRecord :=
  { timestamp := 0, traceId := none, spanId := some 9,
    severityText := "INFO", severityNumber := 9, body := "",
    attributes := [ ("thread.name", JValue.str "main"), ("x", JValue.num 2) ] }

/-- Innermost span of the C3 chain, carrying trace id 1. -/
def c3Inner : SpanData :=
  { handle := 1, otelSpanId := none, otelTraceId := some 1, formattedFields := some [] }

/-- Outermost span of the C3 chain, carrying trace id 2. -/
def c3Outer : SpanData :=
  { handle := 2, otelSpanId := none, otelTraceId := some 2, formattedFields := some [] }

/-- A span without an externally-assigned trace id. -/
def c3NoneSpan : SpanData :=
  { handle := 3, otelSpanId := none, otelTraceId := none, formattedFields := some [] }

/-- The spec's test-vector event: fields message = "hello",
log.file = "a.rs", x = 1, no active span. -/
def c4Event : EventInput :=
  { level := .info, isSpan := false, modulePath := none, file := none, line := none,
    explicitParent := none, currentSpan := none, chain := [],
    threadName := some "main", threadIdStr := "",
    fields := [ ("message", JValue.str "hello"), ("log.file", JValue.str "a.rs"),
                ("x", JValue.num 1) ] }

/-- The record format_event produces for c4Event. -/
def c4Record : OtlpRecord :=
  { timestamp := 0, traceId := none, spanId := none,
    severityText := "INFO", severityNumber := 9, body := "hello",
    attributes := [ ("thread.name", JValue.str "main"),
                    ("code.filepath", JValue.str "a.rs"), ("x", JValue.num 1) ] }

/-- A span carrying externally-assigned trace id 1 and span id 2. -/
def c5Span : SpanData :=
  { handle := 7, otelSpanId := some 2, otelTraceId := some 1, formattedFields := some [] }

/-- An event inside c5Span. -/
def c5Event : EventInput :=
  { level := .info, isSpan := false, modulePath := none, file := none, line := none,
    explicitParent := some c5Span, currentSpan := none, chain := [ c5Span ],
    threadName := some "main", threadIdStr := "",
    fields := [ ("message", JValue.str "hello") ] }

/-- The record format_event produces for c5Event. -/
def c5Record : OtlpRecord :=
  { timestamp := 0, traceId := some 1, spanId := some 2,
    severityText := "INFO", severityNumber := 9, body := "hello",
    attributes := [ ("thread.name", JValue.str "main") ] }

/-- An event whose scope chain starts with a span without a trace id
followed by a span carrying trace id 1. -/
def c6Event : EventInput :=
  { level := .info, isSpan := false, modulePath := none, file := none, line := none,
    explicitParent := none, currentSpan := none, chain := [ c3NoneSpan, c3Inner ],
    threadName := some "main", threadIdStr := "",
    fields := [] }

/-- The record format_event produces for c6Event. -/
def c6Record : OtlpRecord :=
  { timestamp := 0, traceId := some 1, spanId := none,
    severityText := "INFO", severityNumber := 9, body := "",
    attributes := [ ("thread.name", JValue.str "main") ] }

/-- A directly enclosing span with an externally-assigned span id. -/
def c7Span : SpanData :=
  { handle := 5, otelSpanId := some 2, otelTraceId := none, formattedFields := some [] }

/-- An event directly inside c7Span. -/
def c7Event : EventInput :=
  { level := .warn, isSpan := false, modulePath := none, file := none, line := none,
    explicitParent := some c7Span, currentSpan := none, chain := [ c7Span ],
    threadName := some "main", threadIdStr := "",
    fields := [] }

/-- The record format_event produces for c7Event. -/
def c7Record : OtlpRecord :=
  { timestamp := 0, traceId := none, spanId := some 2,
    severityText := "WARN", severityNumber := 13, body := "",
    attributes := [ ("thread.name", JValue.str "main") ] }

/-! ### Helper lemmas about the map operations -/

theorem findq_nil {α : Type} (p : α → Bool) : List.find? p [] = none := rfl

theorem findq_cons {α : Type} (p : α → Bool) (a : α) (l : List α) :
    List.find? p (a :: l) = cond (p a) (some a) (List.find? p l) := by
  cases h : p a <;> simp [List.find?, h]

theorem mapGet_nil (k : String) : mapGet [] k = none := rfl

theorem find_map_replace (m : JMap) (k : String) (v : JValue)
    (h : m.any (fun p => p.1 == k) = true) :
    List.find? (fun p => p.1 == k) (m.map (fun p => if p.1 == k then (k, v) else p))
      = some (k, v) := by
  induction m with
  | nil => simp at h
  | cons p t ih =>
    simp only [List.any_cons, Bool.or_eq_true] at h
    by_cases hp : (p.1 == k) = true
    · simp only [List.map_cons]
      rw [if_pos hp, findq_cons]
      simp
    · have ht : t.any (fun p => p.1 == k) = true := by
        rcases h with h | h
        · exact absurd h hp
        · exact h
      have hp' : (p.1 == k) = false := by
        cases hbk : (p.1 == k)
        · rfl
        · exact absurd hbk hp
      simp only [List.map_cons, hp', Bool.false_eq_true, if_false, findq_cons, hp', cond_false]
      exact ih ht

theorem find_map_keep (m : JMap) (k k' : String) (v : JValue) (h : k' ≠ k) :
    List.find? (fun p => p.1 == k') (m.map (fun p => if p.1 == k then (k, v) else p))
      = List.find? (fun p => p.1 == k') m := by
  have hkk : (k == k') = false := by
    simp only [beq_eq_false_iff_ne]
    exact fun hk => h hk.symm
  induction m with
  | nil => rfl
  | cons p t ih =>
    by_cases hp : (p.1 == k) = true
    · have hpk : p.1 = k := by simpa using hp
      have h2 : (p.1 == k') = false := by
        rw [hpk]
        exact hkk
      simp only [List.map_cons, hp, if_true, findq_cons, hkk, h2, cond_false]
      exact ih
    · have hp' : (p.1 == k) = false := by
        cases hbk : (p.1 == k)
        · rfl
        · exact absurd hbk hp
      simp only [List.map_cons, hp', Bool.false_eq_true, if_false, findq_cons]
      cases hq : (p.1 == k')
      · simp only [cond_false]
        exact ih
      · simp only [cond_true]

theorem find_none_of_any_false (m : JMap) (k : String)
    (h : m.any (fun p => p.1 == k) = false) :
    List.find? (fun p => p.1 == k) m = none := by
  induction m with
  | nil => rfl
  | cons p t ih =>
    simp only [List.any_cons, Bool.or_eq_false_iff] at h
    rw [findq_cons, h.1, cond_false]
    exact ih h.2

theorem mapGet_insert_self (m : JMap) (k : String) (v : JValue) :
    mapGet (mapInsert m k v) k = some v := by
  unfold mapInsert
  split
  · rename_i h
    unfold mapGet
    rw [find_map_replace m k v h]
    rfl
  · rename_i h
    have hfalse : m.any (fun p => p.1 == k) = false := by
      cases hb : m.any (fun p => p.1 == k)
      · rfl
      · exact absurd hb h
    unfold mapGet
    rw [List.find?_append, find_none_of_any_false m k hfalse]
    simp [findq_cons]

theorem mapGet_insert_other (m : JMap) (k : String) (v : JValue) (k' : String) (h : k' ≠ k) :
    mapGet (mapInsert m k v) k' = mapGet m k' := by
  unfold mapInsert
  split
  · unfold mapGet
    rw [find_map_keep m k k' v h]
  · unfold mapGet
    rw [List.find?_append]
    have h1 : List.find? (fun p => p.1 == k') [ (k, v) ] = none := by
      have hkk : (k == k') = false := by
        simp only [beq_eq_false_iff_ne]
        exact fun hk => h hk.symm
      simp [findq_cons, hkk]
    rw [h1]
    cases List.find? (fun p => p.1 == k') m <;> rfl

theorem lastLookup_nil (k : String) : lastLookup [] k = none := rfl

theorem lastLookup_cons (p : String × JValue) (t : JMap) (k : String) :
    lastLookup (p :: t) k
      = Option.or (lastLookup t k) (if p.1 == k then some p.2 else none) := by
  unfold lastLookup
  rw [List.reverse_cons, List.find?_append]
  cases h : List.find? (fun q => q.1 == k) t.reverse
  · simp only [Option.none_or, Option.map, findq_cons, findq_nil]
    cases hp : (p.1 == k)
    · simp
    · simp
  · rfl

theorem mapGet_extend (entries : JMap) (a : JMap) (k : String) :
    mapGet (mapExtend a entries) k = Option.or (lastLookup entries k) (mapGet a k) := by
  induction entries generalizing a with
  | nil => simp [mapExtend, lastLookup_nil]
  | cons p t ih =>
    have h0 : mapExtend a (p :: t) = mapExtend (mapInsert a p.1 p.2) t := rfl
    rw [h0, ih, lastLookup_cons]
    cases h : lastLookup t k
    · simp only [Option.none_or]
      by_cases hp : (p.1 == k) = true
      · have hpk : p.1 = k := by simpa using hp
        rw [if_pos hp, ← hpk, mapGet_insert_self]
        rfl
      · have hp' : (p.1 == k) = false := by
          cases hbk : (p.1 == k)
          · rfl
          · exact absurd hbk hp
        have hpk : k ≠ p.1 := by
          intro hk
          exact hp (by simp [hk])
        rw [mapGet_insert_other a p.1 p.2 k hpk]
        simp [hp']
    · rfl

/-! ### Helper lemmas about the trace-id walk -/

theorem findTraceId_nil : findTraceId [] = none := rfl

theorem findTraceId_cons (s : SpanData) (t : List SpanData) :
    findTraceId (s :: t) = Option.or s.otelTraceId (findTraceId t) := by
  unfold findTraceId
  rw [List.findSome?_cons]
  cases s.otelTraceId <;> rfl

theorem findTraceId_eq_none_iff (chain : List SpanData) :
    findTraceId chain = none ↔ ∀ s ∈ chain, s.otelTraceId = none := by
  induction chain with
  | nil => simp [findTraceId_nil]
  | cons s t ih =>
    rw [findTraceId_cons]
    cases h : s.otelTraceId
    · simp [h, ih, Option.none_or]
    · simp [h]

theorem findTraceId_first (pre : List SpanData) (s : SpanData) (post : List SpanData)
    (t : Nat) (hpre : ∀ p ∈ pre, p.otelTraceId = none) (hs : s.otelTraceId = some t) :
    findTraceId (pre ++ s :: post) = some t := by
  induction pre with
  | nil => rw [List.nil_append, findTraceId_cons, hs]; rfl
  | cons p ps ih =>
    rw [List.cons_append, findTraceId_cons, hpre p (by simp), Option.none_or]
    exact ih (fun q hq => hpre q (by simp [hq]))

/-! ### Helper lemmas about the attribute construction -/

theorem baseAttributes_get_none (e : EventInput) (k : String)
    (h1 : k ≠ "code.namespace") (h2 : k ≠ "code.filepath") (h3 : k ≠ "code.lineno")
    (h4 : k ≠ "thread.name") :
    mapGet (baseAttributes e) k = none := by
  unfold baseAttributes
  rcases e.line with _ | n <;> rcases e.file with _ | f <;> rcases e.modulePath with _ | mp <;>
    simp only [mapGet_insert_other _ _ _ _ h1, mapGet_insert_other _ _ _ _ h2,
      mapGet_insert_other _ _ _ _ h3, mapGet_insert_other _ _ _ _ h4, mapGet_nil]

theorem renameField_no_legacy (s o : String) (h : renameField s = some o) :
    o ≠ "message" ∧ o ≠ "log.file" ∧ o ≠ "log.line" ∧ o ≠ "log.module_path"
      ∧ o ≠ "log.target" := by
  unfold renameField at h
  by_cases hb1 : (s == "message") = true
  · rw [if_pos hb1] at h
    simp at h
  · rw [if_neg hb1] at h
    by_cases hb2 : (s == "log.file") = true
    · rw [if_pos hb2] at h
      have ho : o = "code.filepath" := by
        injection h with h'
        exact h'.symm
      subst ho
      exact ⟨by decide, by decide, by decide, by decide, by decide⟩
    · rw [if_neg hb2] at h
      by_cases hb3 : (s == "log.line") = true
      · rw [if_pos hb3] at h
        have ho : o = "code.lineno" := by
          injection h with h'
          exact h'.symm
        subst ho
        exact ⟨by decide, by decide, by decide, by decide, by decide⟩
      · rw [if_neg hb3] at h
        by_cases hb4 : (s == "log.module_path") = true
        · rw [if_pos hb4] at h
          have ho : o = "code.namespace" := by
            injection h with h'
            exact h'.symm
          subst ho
          exact ⟨by decide, by decide, by decide, by decide, by decide⟩
        · rw [if_neg hb4] at h
          by_cases hb5 : (s == "log.target") = true
          · rw [if_pos hb5] at h
            simp at h
          · rw [if_neg hb5] at h
            have ho : o = s := by
              injection h with h'
              exact h'.symm
            subst ho
            refine ⟨?_, ?_, ?_, ?_, ?_⟩
            · intro hs
              exact hb1 (by simp [hs])
            · intro hs
              exact hb2 (by simp [hs])
            · intro hs
              exact hb3 (by simp [hs])
            · intro hs
              exact hb4 (by simp [hs])
            · intro hs
              exact hb5 (by simp [hs])

theorem renameField_default (k : String) (h1 : k ≠ "message") (h2 : k ≠ "log.file")
    (h3 : k ≠ "log.line") (h4 : k ≠ "log.module_path") (h5 : k ≠ "log.target") :
    renameField k = some k := by
  unfold renameField
  rw [if_neg (by simp [h1]), if_neg (by simp [h2]), if_neg (by simp [h3]),
    if_neg (by simp [h4]), if_neg (by simp [h5])]

theorem renamesTo_no_legacy (p : String × JValue) (k : String)
    (hk : k = "message" ∨ k = "log.file" ∨ k = "log.line" ∨ k = "log.module_path"
      ∨ k = "log.target") :
    renamesTo p k = false := by
  unfold renamesTo
  cases h : renameField p.1
  · rfl
  · rename_i o
    have hno := renameField_no_legacy p.1 o h
    have : o ≠ k := by
      rcases hk with rfl | rfl | rfl | rfl | rfl
      · exact hno.1
      · exact hno.2.1
      · exact hno.2.2.1
      · exact hno.2.2.2.1
      · exact hno.2.2.2.2
    simp [this]

/-! ### Helper lemmas about the event-field merge -/

theorem mergeEventFields_nil (init : String × JMap) : mergeEventFields init [] = init := rfl

theorem mergeEventFields_cons (b : String) (a : JMap) (p : String × JValue) (t : JMap) :
    mergeEventFields (b, a) (p :: t)
      = mergeEventFields
          (if p.1 == "message" then (p.2.asStrOrEmpty, a)
           else if p.1 == "log.file" then (b, mapInsert a "code.filepath" p.2)
           else if p.1 == "log.line" then (b, mapInsert a "code.lineno" p.2)
           else if p.1 == "log.module_path" then (b, mapInsert a "code.namespace" p.2)
           else if p.1 == "log.target" then (b, a)
           else (b, mapInsert a p.1 p.2)) t := rfl

theorem merge_get (fields : JMap) (b : String) (a : JMap) (k : String) :
    mapGet (mergeEventFields (b, a) fields).2 k
      = Option.or ((fields.reverse.find? (fun p => renamesTo p k)).map (fun p => p.2))
          (mapGet a k) := by
  induction fields generalizing b a with
  | nil => simp [mergeEventFields_nil]
  | cons p t ih =>
    rw [List.reverse_cons, List.find?_append, mergeEventFields_cons]
    cases hfind : List.find? (fun q => renamesTo q k) t.reverse with
    | some x =>
      have hx : ∀ (b' : String) (a' : JMap),
          mapGet (mergeEventFields (b', a') t).2 k = some x.2 := by
        intro b' a'
        have hthis := ih b' a'
        rw [hfind] at hthis
        exact hthis
      by_cases hb1 : (p.1 == "message") = true
      · rw [if_pos hb1, hx]
        rfl
      · rw [if_neg hb1]
        by_cases hb2 : (p.1 == "log.file") = true
        · rw [if_pos hb2, hx]
          rfl
        · rw [if_neg hb2]
          by_cases hb3 : (p.1 == "log.line") = true
          · rw [if_pos hb3, hx]
            rfl
          · rw [if_neg hb3]
            by_cases hb4 : (p.1 == "log.module_path") = true
            · rw [if_pos hb4, hx]
              rfl
            · rw [if_neg hb4]
              by_cases hb5 : (p.1 == "log.target") = true
              · rw [if_pos hb5, hx]
                rfl
              · rw [if_neg hb5, hx]
                rfl
    | none =>
      have hx : ∀ (b' : String) (a' : JMap),
          mapGet (mergeEventFields (b', a') t).2 k = mapGet a' k := by
        intro b' a'
        have hthis := ih b' a'
        rw [hfind] at hthis
        exact hthis
      have hone : List.find? (fun q => renamesTo q k) [ p ]
          = if renamesTo p k then some p else none := by
        rw [findq_cons, findq_nil]
        cases renamesTo p k <;> rfl
      rw [Option.none_or, hone]
      by_cases hb1 : (p.1 == "message") = true
      · rw [if_pos hb1, hx]
        have hr : renamesTo p k = false := by
          unfold renamesTo renameField
          rw [if_pos hb1]
        simp [hr]
      · rw [if_neg hb1]
        by_cases hb2 : (p.1 == "log.file") = true
        · rw [if_pos hb2, hx]
          have hr : renamesTo p k = (("code.filepath" : String) == k) := by
            unfold renamesTo renameField
            rw [if_neg hb1, if_pos hb2]
          rw [hr]
          cases hk : (("code.filepath" : String) == k)
          · have hkk : k ≠ "code.filepath" := by
              intro hh
              exact (beq_eq_false_iff_ne.mp hk) hh.symm
            rw [mapGet_insert_other _ _ _ _ hkk]
            simp
          · have hkk : k = "code.filepath" := (beq_iff_eq.mp hk).symm
            subst hkk
            rw [mapGet_insert_self]
            simp
        · rw [if_neg hb2]
          by_cases hb3 : (p.1 == "log.line") = true
          · rw [if_pos hb3, hx]
            have hr : renamesTo p k = (("code.lineno" : String) == k) := by
              unfold renamesTo renameField
              rw [if_neg hb1, if_neg hb2, if_pos hb3]
            rw [hr]
            cases hk : (("code.lineno" : String) == k)
            · have hkk : k ≠ "code.lineno" := by
                intro hh
                exact (beq_eq_false_iff_ne.mp hk) hh.symm
              rw [mapGet_insert_other _ _ _ _ hkk]
              simp
            · have hkk : k = "code.lineno" := (beq_iff_eq.mp hk).symm
              subst hkk
              rw [mapGet_insert_self]
              simp
          · rw [if_neg hb3]
            by_cases hb4 : (p.1 == "log.module_path") = true
            · rw [if_pos hb4, hx]
              have hr : renamesTo p k = (("code.namespace" : String) == k) := by
                unfold renamesTo renameField
                rw [if_neg hb1, if_neg hb2, if_neg hb3, if_pos hb4]
              rw [hr]
              cases hk : (("code.namespace" : String) == k)
              · have hkk : k ≠ "code.namespace" := by
                  intro hh
                  exact (beq_eq_false_iff_ne.mp hk) hh.symm
                rw [mapGet_insert_other _ _ _ _ hkk]
                simp
              · have hkk : k = "code.namespace" := (beq_iff_eq.mp hk).symm
                subst hkk
                rw [mapGet_insert_self]
                simp
            · rw [if_neg hb4]
              by_cases hb5 : (p.1 == "log.target") = true
              · rw [if_pos hb5, hx]
                have hr : renamesTo p k = false := by
                  unfold renamesTo renameField
                  rw [if_neg hb1, if_neg hb2, if_neg hb3, if_neg hb4, if_pos hb5]
                simp [hr]
              · rw [if_neg hb5, hx]
                have hr : renamesTo p k = (p.1 == k) := by
                  unfold renamesTo renameField
                  rw [if_neg hb1, if_neg hb2, if_neg hb3, if_neg hb4, if_neg hb5]
                rw [hr]
                cases hk : (p.1 == k)
                · have hkk : k ≠ p.1 := by
                    intro hh
                    exact (beq_eq_false_iff_ne.mp hk) hh.symm
                  rw [mapGet_insert_other _ _ _ _ hkk]
                  simp
                · have hkk : k = p.1 := (beq_iff_eq.mp hk).symm
                  subst hkk
                  rw [mapGet_insert_self]
                  simp

theorem merge_body (fields : JMap) (b : String) (a : JMap) :
    (mergeEventFields (b, a) fields).1
      = ((fields.reverse.find? (fun p => p.1 == "message")).map
          (fun p => p.2.asStrOrEmpty)).getD b := by
  induction fields generalizing b a with
  | nil => rfl
  | cons p t ih =>
    rw [List.reverse_cons, List.find?_append, mergeEventFields_cons]
    cases hfind : List.find? (fun q => q.1 == "message") t.reverse with
    | some x =>
      have hx : ∀ init : String × JMap,
          (mergeEventFields init t).1 = x.2.asStrOrEmpty := by
        intro init
        have hthis := ih init.1 init.2
        rw [hfind] at hthis
        exact hthis
      exact (hx _).trans rfl
    | none =>
      have hx : ∀ init : String × JMap,
          (mergeEventFields init t).1 = init.1 := by
        intro init
        have hthis := ih init.1 init.2
        rw [hfind] at hthis
        exact hthis
      rw [hx, Option.none_or]
      have hone : List.find? (fun q => q.1 == "message") [ p ]
          = if p.1 == "message" then some p else none := by
        rw [findq_cons, findq_nil]
        cases p.1 == "message" <;> rfl
      rw [hone]
      split_ifs with hb1 hb2 hb3 hb4 hb5 <;> rfl

theorem formatEventRecord_ok (e : EventInput) (now : Int) (r : OtlpRecord)
    (h : formatEventRecord e now = Except.ok r) :
    r.timestamp = now ∧ r.traceId = findTraceId e.chain ∧ r.spanId = findSpanId e
    ∧ r.severityText = (severityOf e.level).1 ∧ r.severityNumber = (severityOf e.level).2
    ∧ r.body = (mergeEventFields ("", baseAttributes e) e.fields).1
    ∧ ((if e.isSpan then e.explicitParent else none) = none →
        r.attributes = (mergeEventFields ("", baseAttributes e) e.fields).2)
    ∧ (∀ s m, (if e.isSpan then e.explicitParent else none) = some s →
        s.formattedFields = some m →
        r.attributes = mapExtend (mergeEventFields ("", baseAttributes e) e.fields).2 m) := by
  unfold formatEventRecord at h
  cases hx : (if e.isSpan then e.explicitParent else none) with
  | none =>
    rw [hx] at h
    simp only [Option.map_none'] at h
    cases h
    exact ⟨rfl, rfl, rfl, rfl, rfl, rfl, fun _ => rfl,
      fun s m hs _ => absurd hs (by simp)⟩
  | some s =>
    rw [hx] at h
    simp only [Option.map_some'] at h
    cases hff : s.formattedFields with
    | none =>
      rw [hff] at h
      simp at h
    | some m =>
      rw [hff] at h
      cases h
      refine ⟨rfl, rfl, rfl, rfl, rfl, rfl, fun hs => absurd hs (by simp), ?_⟩
      intro s' m' hs hm
      have hss : s' = s := by
        cases hs
        rfl
      subst hss
      rw [hff] at hm
      have hmm : m' = m := by
        cases hm
        rfl
      subst hmm
      rfl

/-! ### Helper lemmas about digits, padding and newline freedom -/

theorem hexDigitChar_mem (k : Nat) : hexDigitChar k ∈ hexCharList := by
  unfold hexDigitChar
  by_cases h : k < 16
  · interval_cases k <;> decide
  · rw [List.getD_eq_default]
    · decide
    · unfold hexCharList
      simp
      omega

theorem natDigitsB_mem (b : Nat) : ∀ n, ∀ c ∈ natDigitsB b n, c ∈ hexCharList := by
  intro n
  induction n using Nat.strong_induction_on with
  | _ n ih =>
    intro c hc
    rw [natDigitsB] at hc
    split at hc
    · simp at hc
      subst hc
      exact hexDigitChar_mem _
    · rename_i hcond
      rw [List.mem_append] at hc
      rcases hc with hc | hc
      · exact ih (n / b) (Nat.div_lt_self (by omega) (by omega)) c hc
      · simp at hc
        subst hc
        exact hexDigitChar_mem _

theorem natDigitsB_length_le (b : Nat) (hb : 1 < b) :
    ∀ w n, 0 < w → n < b ^ w → (natDigitsB b n).length ≤ w := by
  intro w
  induction w with
  | zero =>
    intro n h
    omega
  | succ w ih =>
    intro n _ hn
    rw [natDigitsB]
    split
    · simp
    · rename_i hcond
      have hw : 0 < w := by
        rcases Nat.eq_zero_or_pos w with hw0 | hw0
        · subst hw0
          rw [pow_one] at hn
          omega
        · exact hw0
      have hdiv : n / b < b ^ w := by
        rw [Nat.div_lt_iff_lt_mul (by omega : 0 < b)]
        calc n < b ^ (w + 1) := hn
          _ = b ^ w * b := by rw [pow_succ]
      have hlen := ih (n / b) hw hdiv
      simp [List.length_append]
      omega

theorem hexPad_length (w n : Nat) (hw : 0 < w) (hn : n < 16 ^ w) :
    (hexPad w n).length = w := by
  have hlen := natDigitsB_length_le 16 (by omega) w n hw hn
  show (List.replicate (w - (natDigitsB 16 n).length) '0' ++ natDigitsB 16 n).length = w
  rw [List.length_append, List.length_replicate]
  omega

theorem hexPad_mem (w n : Nat) : ∀ c ∈ (hexPad w n).data, c ∈ hexCharList := by
  intro c hc
  have hc' : c ∈ List.replicate (w - (natDigitsB 16 n).length) '0' ++ natDigitsB 16 n := hc
  rw [List.mem_append] at hc'
  rcases hc' with hc' | hc'
  · have hc0 := List.eq_of_mem_replicate hc'
    subst hc0
    decide
  · exact natDigitsB_mem 16 n c hc'

theorem nlfree_append (a b : String) (ha : NLFree a) (hb : NLFree b) : NLFree (a ++ b) := by
  intro hmem
  rw [show (a ++ b).data = a.data ++ b.data from rfl, List.mem_append] at hmem
  rcases hmem with h | h
  · exact ha h
  · exact hb h

theorem nlfree_joinSep (sep : String) (hsep : NLFree sep) :
    ∀ l : List String, (∀ x ∈ l, NLFree x) → NLFree (joinSep sep l)
  | [], _ => fun hmem => nomatch hmem
  | [ x ], h => h x (by simp)
  | x :: y :: t, h => by
    have h1 := h x (by simp)
    have h2 := nlfree_joinSep sep hsep (y :: t)
      (fun z hz => h z (List.mem_cons_of_mem x hz))
    exact nlfree_append _ _ (nlfree_append _ _ h1 hsep) h2

theorem nlfree_hexPad (w n : Nat) : NLFree (hexPad w n) := by
  intro hmem
  exact absurd (hexPad_mem w n _ hmem) (by decide)

theorem nlfree_natToDec (n : Nat) : NLFree (natToDec n) := by
  intro hmem
  exact absurd (natDigitsB_mem 10 n _ hmem) (by decide)

theorem nlfree_intToDec (i : Int) : NLFree (intToDec i) := by
  unfold intToDec
  split_ifs
  · exact nlfree_append _ _ (by decide) (nlfree_natToDec _)
  · exact nlfree_natToDec _

theorem nlfree_escChar (c : Char) : NLFree (escChar c) := by
  unfold escChar
  split_ifs with h1 h2 h3 h4 h5 h6
  · decide
  · decide
  · decide
  · decide
  · decide
  · exact nlfree_append _ _ (by decide) (nlfree_hexPad _ _)
  · intro hmem
    have hc : '\n' = c := by simpa using hmem
    rw [← hc] at h6
    exact h6 (by decide)

theorem nlfree_jsonEscape : ∀ l : List Char, NLFree (jsonEscape l)
  | [] => fun hmem => nomatch hmem
  | c :: cs => nlfree_append _ _ (nlfree_escChar c) (nlfree_jsonEscape cs)

theorem nlfree_jsonStr (s : String) : NLFree (jsonStr s) :=
  nlfree_append _ _ (nlfree_append _ _ (by decide) (nlfree_jsonEscape s.data)) (by decide)

theorem nlfree_renderJValue (v : JValue) : NLFree (renderJValue v) := by
  cases v with
  | str s => exact nlfree_jsonStr s
  | num n => exact nlfree_intToDec n
  | jnull => decide

theorem nlfree_renderAttrs (m : JMap) : NLFree (renderAttrs m) := by
  unfold renderAttrs
  refine nlfree_append _ _ (nlfree_append _ _ (by decide) ?_) (by decide)
  refine nlfree_joinSep "," (by decide) _ ?_
  intro x hx
  rw [List.mem_map] at hx
  obtain ⟨p, _, rfl⟩ := hx
  exact nlfree_append _ _ (nlfree_append _ _ (nlfree_jsonStr p.1) (by decide))
    (nlfree_renderJValue p.2)

theorem nlfree_quoted (s : String) (h : NLFree s) : NLFree ("\"" ++ s ++ "\"") :=
  nlfree_append _ _ (nlfree_append _ _ (by decide) h) (by decide)

theorem entries_nlfree (r : OtlpRecord) :
    ∀ p ∈ recordEntries r, NLFree ("\"" ++ p.1 ++ "\":" ++ p.2) := by
  have hkey : ∀ ks vs : String, NLFree ks → NLFree vs → NLFree ("\"" ++ ks ++ "\":" ++ vs) := by
    intro ks vs hk hv
    exact nlfree_append _ _ (nlfree_append _ _ (nlfree_append _ _ (by decide) hk) (by decide)) hv
  intro p hp
  unfold recordEntries at hp
  rcases htr : r.traceId with _ | t <;> rcases hsp : r.spanId with _ | sid <;>
      rw [htr, hsp] at hp <;> simp only [List.cons_append, List.nil_append] at hp <;>
      fin_cases hp <;>
      dsimp only <;>
      first
        | exact hkey _ _ (by decide) (nlfree_quoted _ (nlfree_intToDec _))
        | exact hkey _ _ (by decide) (nlfree_quoted _ (nlfree_hexPad _ _))
        | exact hkey _ _ (by decide) (nlfree_jsonStr _)
        | exact hkey _ _ (by decide) (nlfree_natToDec _)
        | exact hkey _ _ (by decide) (nlfree_renderAttrs _)

/-! ### Claims about src/logging.rs -/

/-- C1 counterexample. The claim states that the effective filter of
Options::init accepts a (target, level) pair iff the verbosity-derived
filter A or the expression-derived filter B accepts it, the more
permissive level winning for a target present in both. At verbosity 0
with package and crate name "my-app", A maps target my_app to INFO; the
expression "my_app=error" maps it to ERROR. The effective filter rejects
(my_app, INFO) even though A alone accepts it: B's directive replaced
A's, so the combination is not an OR and the more permissive level did
not win. -/
theorem c1_counterexample :
    (effectiveTargets 0 "my-app" "my-app" "my_app=error").map
        (fun t => Targets.enabledFor t "my_app" [] Level.info) = Except.ok false
    ∧ Targets.enabledFor (verbosityTargets 0 "my-app" "my-app") "my_app" [] Level.info = true :=
  ⟨rfl, rfl⟩

/-- C1 amended: the combination performed by Options::init is an
override, not an OR. Extending the verbosity filter with the parsed
expression adds only the expression's explicit per-target directives;
a bare default level in the expression (such as "warn") is dropped
entirely, leaving the verbosity filter unchanged; and for a target
present in both filters the expression's level replaces the verbosity
level outright, so the effective acceptance for that target follows the
expression's level alone regardless of the verbosity count. -/
theorem c1_amended :
    (∀ (v : Nat) (pkg crate : String),
      effectiveTargets v pkg crate "warn" = Except.ok (verbosityTargets v pkg crate))
    ∧ (∀ (v : Nat) (l : Level),
      (effectiveTargets v "my-app" "my-app" "my_app=error").map
          (fun t => Targets.enabledFor t "my_app" [] l)
        = Except.ok (filterGe LevelFilter.error l)) :=
  ⟨fun _ _ _ => rfl, fun _ _ => rfl⟩

/-- C8: Options::init resolves the verbosity count through the fixed
table 0 to (ERROR, INFO), 1 to (INFO, INFO), 2 to (INFO, DEBUG), 3 to
(INFO, TRACE), 4 to (DEBUG, TRACE), and 5 or more to (TRACE, TRACE),
applying the own-target level to the application's own module namespaces
(the underscored package and crate names and their submodules) and the
global level as the default for other targets. -/
theorem c8_verbosity_table (v : Nat) :
    (v = 0 → verbosityLevels v = (LevelFilter.error, LevelFilter.info))
    ∧ (v = 1 → verbosityLevels v = (LevelFilter.info, LevelFilter.info))
    ∧ (v = 2 → verbosityLevels v = (LevelFilter.info, LevelFilter.debug))
    ∧ (v = 3 → verbosityLevels v = (LevelFilter.info, LevelFilter.trace))
    ∧ (v = 4 → verbosityLevels v = (LevelFilter.debug, LevelFilter.trace))
    ∧ (5 ≤ v → verbosityLevels v = (LevelFilter.trace, LevelFilter.trace))
    ∧ (∀ l : Level,
        Targets.enabledFor (verbosityTargets v "my-app" "my-app") "my_app" [] l
          = filterGe (verbosityLevels v).2 l
        ∧ Targets.enabledFor (verbosityTargets v "my-app" "my-app") "my_app::module" [] l
          = filterGe (verbosityLevels v).2 l
        ∧ Targets.enabledFor (verbosityTargets v "my-app" "my-app") "other_crate" [] l
          = filterGe (verbosityLevels v).1 l) := by
  refine ⟨?_, ?_, ?_, ?_, ?_, ?_, ?_⟩
  · rintro rfl; rfl
  · rintro rfl; rfl
  · rintro rfl; rfl
  · rintro rfl; rfl
  · rintro rfl; rfl
  · intro h
    obtain ⟨n, rfl⟩ : ∃ n, v = n + 5 := ⟨v - 5, by omega⟩
    rfl
  · intro l
    exact ⟨rfl, rfl, rfl⟩

/-- C8 witness at verbosity 5. -/
theorem c8_verbosity_table_witness :
    verbosityLevels 5 = (LevelFilter.trace, LevelFilter.trace) :=
  (c8_verbosity_table 5).2.2.2.2.2.1 (by decide)

/-- C9: the filter-expression handling of Options::init fails with a
parse error — returned to the caller with the global state untouched,
before the pipeline is installed — iff the expression is non-empty and
malformed; an empty expression yields the empty Targets filter, and
extending any filter with the empty filter adds no overrides. -/
theorem c9_filter_parse (o : Options) (ver : VersionInfo) (st : InitState) :
    ((∃ e, (Options.init o ver st).1 = Except.error (InitError.parseError e))
      ↔ (o.logFilter ≠ "" ∧ ∃ e, parseTargets o.logFilter = Except.error e))
    ∧ (∀ e, logFilterStage o.logFilter = Except.error e →
        Options.init o ver st = (Except.error (InitError.parseError e), st))
    ∧ (o.logFilter = "" →
        logFilterStage o.logFilter = Except.ok Targets.new
        ∧ ∀ A : Targets, Targets.withTargets A Targets.new = A) := by
  refine ⟨⟨?_, ?_⟩, ?_, ?_⟩
  · rintro ⟨e, he⟩
    by_cases h0 : o.logFilter = ""
    · rcases hst : st.flameGuard with _ | g <;>
        simp [Options.init, logFilterStage, h0, hst] at he
    · refine ⟨h0, ?_⟩
      rcases hp : parseTargets o.logFilter with e2 | t
      · exact ⟨e2, rfl⟩
      · rcases hst : st.flameGuard with _ | g <;>
          simp [Options.init, logFilterStage, h0, hp, hst] at he
  · rintro ⟨h0, e, hp⟩
    exact ⟨e, by simp [Options.init, logFilterStage, h0, hp]⟩
  · intro e he
    simp [Options.init, he]
  · intro h0
    exact ⟨by simp [logFilterStage, h0], fun A => rfl⟩

/-- C9 witness: the malformed expression foo=bar (bar is not a level)
aborts Options::init with a parse error and leaves the state unchanged. -/
theorem c9_filter_parse_witness :
    Options.init { verbose := 0, logFilter := "foo=bar", traceFlame := none }
        { pkgName := "my-app", crateName := "my-app" } { flameGuard := none }
      = (Except.error (InitError.parseError "invalid level filter"), { flameGuard := none }) :=
  (c9_filter_parse { verbose := 0, logFilter := "foo=bar", traceFlame := none }
      { pkgName := "my-app", crateName := "my-app" } { flameGuard := none }).2.1
    "invalid level filter" rfl

/-- C10: Options::init succeeds at most once per process. A successful
call requires the flame flush guard cell to be unset and sets it; a call
made while the cell is set fails and changes nothing; the cell is only
ever written when it was unset; and after any successful call every
subsequent call, with any options value, fails. -/
theorem c10_init_once (o : Options) (ver : VersionInfo) (st : InitState)
    (res : Except InitError Targets) (st' : InitState)
    (h : Options.init o ver st = (res, st')) :
    (∀ t, res = Except.ok t →
      st.flameGuard = none
      ∧ st'.flameGuard = some (o.traceFlame.map (fun _ => ())))
    ∧ (st.flameGuard ≠ none → st' = st ∧ ∀ t, res ≠ Except.ok t)
    ∧ (st' = st ∨ st.flameGuard = none)
    ∧ (∀ (o2 : Options) (ver2 : VersionInfo) (t : Targets), res = Except.ok t →
        ∀ t2 : Targets, (Options.init o2 ver2 st').1 ≠ Except.ok t2) := by
  unfold Options.init at h
  rcases hl : logFilterStage o.logFilter with e | lf <;> rw [hl] at h
  · injection h with h1 h2
    subst h1
    subst h2
    refine ⟨by simp, fun _ => ⟨rfl, by simp⟩, Or.inl rfl, by simp⟩
  · rcases hst : st.flameGuard with _ | g <;> rw [hst] at h
    · injection h with h1 h2
      subst h1
      subst h2
      refine ⟨fun t _ => ⟨rfl, rfl⟩, fun hne => absurd rfl hne, Or.inr rfl, ?_⟩
      intro o2 ver2 t _ t2
      unfold Options.init
      rcases hl2 : logFilterStage o2.logFilter with e2 | lf2 <;> simp [hl2]
    · injection h with h1 h2
      subst h1
      subst h2
      refine ⟨by simp, fun _ => ⟨rfl, by simp⟩, Or.inl rfl, by simp⟩

/-- C10 witness: after a first successful initialization from the unset
state, a second call with the same options does not succeed. -/
theorem c10_init_once_witness :
    (Options.init { verbose := 0, logFilter := "", traceFlame := none }
        { pkgName := "my-app", crateName := "my-app" }
        ((Options.init { verbose := 0, logFilter := "", traceFlame := none }
            { pkgName := "my-app", crateName := "my-app" }
            { flameGuard := none }).2)).1
      ≠ Except.ok Targets.new :=
  (c10_init_once { verbose := 0, logFilter := "", traceFlame := none }
      { pkgName := "my-app", crateName := "my-app" } { flameGuard := none }
      _ _ rfl).2.2.2
    { verbose := 0, logFilter := "", traceFlame := none }
    { pkgName := "my-app", crateName := "my-app" } _ rfl Targets.new

/-! ### Claims about src/trace/otlp_format.rs -/

theorem findq_eq_none_of_false {α : Type} (f : α → Bool) (l : List α)
    (h : ∀ x, f x = false) : List.find? f l = none := by
  induction l with
  | nil => rfl
  | cons a t ih =>
    rw [findq_cons, h, cond_false]
    exact ih

/-- C2 counterexample. The claim states that for a span-boundary event
with an explicit parent span, the span-field merge leaves every
already-present attribute value unchanged. In c2Event the event field x
has value 1 after the event-field merge, but the parent span's formatted
field set binds x to 2 and the final record carries x = 2: the span-field
merge overwrote the already-present attribute. -/
theorem c2_counterexample :
    (formatEventRecord c2Event 0).map (fun r => mapGet r.attributes "x")
        = Except.ok (some (JValue.num 2))
    ∧ mapGet (mergeEventFields ("", baseAttributes c2Event) c2Event.fields).2 "x"
        = some (JValue.num 1) :=
  ⟨rfl, rfl⟩

/-- C2 amended: when the formatted event is a span boundary with an
explicit parent span, the parent span's already-formatted field set is
merged into the attribute mapping by map-extend semantics, so a span
field DOES override an already-present same-named attribute: for every
key bound in the span's field set, the final attribute value is the
span's value (the last occurrence in the span field list). -/
theorem c2_amended (e : EventInput) (now : Int) (s : SpanData) (m : JMap) (r : OtlpRecord)
    (hspan : e.isSpan = true) (hpar : e.explicitParent = some s)
    (hff : s.formattedFields = some m) (h : formatEventRecord e now = Except.ok r) :
    r.attributes = mapExtend (mergeEventFields ("", baseAttributes e) e.fields).2 m
    ∧ (∀ k v, lastLookup m k = some v → mapGet r.attributes k = some v) := by
  have hif : (if e.isSpan then e.explicitParent else none) = some s := by
    rw [hspan]
    simpa using hpar
  have hattrs := (formatEventRecord_ok e now r h).2.2.2.2.2.2.2 s m hif hff
  refine ⟨hattrs, ?_⟩
  intro k v hkv
  rw [hattrs, mapGet_extend, hkv]
  rfl

/-- C2 amended witness: for the concrete span-boundary event, the span
field x = 2 wins over the event field x = 1. -/
theorem c2_amended_witness : mapGet c2Record.attributes "x" = some (JValue.num 2) :=
  (c2_amended c2Event 0 c2Span [ ("x", JValue.num 2) ] c2Record rfl rfl rfl rfl).2
    "x" (JValue.num 2) rfl

/-- C3 counterexample. The claim states that over a span chain whose
ancestors carry different externally-assigned trace ids the resolution
returns the outermost-found id. For the chain with innermost span
carrying id 1 and outermost span carrying id 2, the walk returns 1 (the
innermost-found id), not 2. -/
theorem c3_counterexample :
    findTraceId [ c3Inner, c3Outer ] = some 1
    ∧ c3Inner.otelTraceId = some 1 ∧ c3Outer.otelTraceId = some 2
    ∧ (1 : Nat) ≠ 2 :=
  ⟨rfl, rfl, rfl, by decide⟩

/-- C3 amended: the trace-id resolution over a span chain returns the
INNERMOST-found non-empty trace id — the id of the first span, scanning
from the innermost span outward, that carries one — and returns none
exactly when no span in the chain carries an externally-assigned id. -/
theorem c3_amended (chain : List SpanData) :
    (findTraceId chain = none ↔ ∀ s ∈ chain, s.otelTraceId = none)
    ∧ (∀ (pre : List SpanData) (s : SpanData) (post : List SpanData) (t : Nat),
        chain = pre ++ s :: post → (∀ p ∈ pre, p.otelTraceId = none) →
        s.otelTraceId = some t → findTraceId chain = some t) := by
  refine ⟨findTraceId_eq_none_iff chain, ?_⟩
  intro pre s post t hchain hpre hs
  rw [hchain]
  exact findTraceId_first pre s post t hpre hs

/-- C3 amended witness: with an id-less inner span in front, the first
id-carrying span (id 1) decides. -/
theorem c3_amended_witness : findTraceId [ c3NoneSpan, c3Inner ] = some 1 :=
  (c3_amended [ c3NoneSpan, c3Inner ]).2 [ c3NoneSpan ] c3Inner [] 1 rfl
    (by
      intro p hp
      rw [List.mem_singleton] at hp
      subst hp
      rfl)
    rfl

/-- C4: the event-field merge happens after the source-location and
thread attributes and applies exactly the case-sensitive exact-match
renames of the source: message is extracted as the Body and kept out of
the attributes, log.file becomes code.filepath, log.line becomes
code.lineno, log.module_path becomes code.namespace, log.target is
dropped with no destination, every other name passes through unchanged,
and a (renamed) event field overwrites any earlier same-named attribute
(the last write wins). -/
theorem c4_field_merge (e : EventInput) (now : Int) (r : OtlpRecord)
    (h : formatEventRecord e now = Except.ok r) :
    (r.body = ((e.fields.reverse.find? (fun p => p.1 == "message")).map
        (fun p => p.2.asStrOrEmpty)).getD "")
    ∧ (∀ k, mapGet (mergeEventFields ("", baseAttributes e) e.fields).2 k
        = Option.or ((e.fields.reverse.find? (fun p => renamesTo p k)).map (fun p => p.2))
            (mapGet (baseAttributes e) k))
    ∧ renameField "message" = none
    ∧ renameField "log.file" = some "code.filepath"
    ∧ renameField "log.line" = some "code.lineno"
    ∧ renameField "log.module_path" = some "code.namespace"
    ∧ renameField "log.target" = none
    ∧ (∀ k, k ≠ "message" → k ≠ "log.file" → k ≠ "log.line" → k ≠ "log.module_path" →
        k ≠ "log.target" → renameField k = some k)
    ∧ mapGet (mergeEventFields ("", baseAttributes e) e.fields).2 "message" = none
    ∧ mapGet (mergeEventFields ("", baseAttributes e) e.fields).2 "log.target" = none
    ∧ mapGet (mergeEventFields ("", baseAttributes e) e.fields).2 "log.file" = none
    ∧ (∀ k v,
        (e.fields.reverse.find? (fun p => renamesTo p k)).map (fun p => p.2) = some v →
        mapGet (mergeEventFields ("", baseAttributes e) e.fields).2 k = some v)
    ∧ (e.isSpan = false →
        r.attributes = (mergeEventFields ("", baseAttributes e) e.fields).2) := by
  have hok := formatEventRecord_ok e now r h
  have habsent : ∀ k0 : String,
      (k0 = "message" ∨ k0 = "log.file" ∨ k0 = "log.line" ∨ k0 = "log.module_path"
        ∨ k0 = "log.target") →
      k0 ≠ "code.namespace" → k0 ≠ "code.filepath" → k0 ≠ "code.lineno" →
      k0 ≠ "thread.name" →
      mapGet (mergeEventFields ("", baseAttributes e) e.fields).2 k0 = none := by
    intro k0 hleg h1 h2 h3 h4
    rw [merge_get, findq_eq_none_of_false _ _ (fun p => renamesTo_no_legacy p k0 hleg)]
    rw [Option.map_none', Option.none_or]
    exact baseAttributes_get_none e k0 h1 h2 h3 h4
  refine ⟨?_, ?_, rfl, rfl, rfl, rfl, rfl, ?_, ?_, ?_, ?_, ?_, ?_⟩
  · rw [hok.2.2.2.2.2.1]
    exact merge_body e.fields "" (baseAttributes e)
  · intro k
    exact merge_get e.fields "" (baseAttributes e) k
  · exact renameField_default
  · exact habsent "message" (Or.inl rfl) (by decide) (by decide) (by decide) (by decide)
  · exact habsent "log.target" (Or.inr (Or.inr (Or.inr (Or.inr rfl))))
      (by decide) (by decide) (by decide) (by decide)
  · exact habsent "log.file" (Or.inr (Or.inl rfl))
      (by decide) (by decide) (by decide) (by decide)
  · intro k v hkv
    rw [merge_get, hkv]
    rfl
  · intro hspan
    exact hok.2.2.2.2.2.2.1 (by simp [hspan])

/-- C4 witness at the spec's test vector: Body "hello", code.filepath
"a.rs", x preserved, and no log.file attribute. -/
theorem c4_field_merge_witness :
    c4Record.body = "hello"
    ∧ mapGet c4Record.attributes "code.filepath" = some (JValue.str "a.rs")
    ∧ mapGet c4Record.attributes "x" = some (JValue.num 1)
    ∧ mapGet c4Record.attributes "log.file" = none := by
  have h := c4_field_merge c4Event 0 c4Record rfl
  have hattrs := h.2.2.2.2.2.2.2.2.2.2.2.2 rfl
  refine ⟨h.1.trans rfl, ?_, ?_, ?_⟩
  · rw [hattrs]
    rfl
  · rw [hattrs]
    rfl
  · rw [hattrs]
    rfl

/-- C5: for every successfully formatted event the serialized entry
sequence has the keys Timestamp, TraceId (only when resolved), SpanId
(only when resolved), severity, SeverityText, SeverityNumber, Body,
Attributes in that order; the TraceId and SpanId values are the quoted
zero-padded lowercase hex renderings (32 and 16 digits wide for the
128-bit and 64-bit ids); severity duplicates SeverityText; and the
emitted line is a single JSON object terminated by exactly one final
newline. -/
theorem c5_serialization (e : EventInput) (now : Int) (r : OtlpRecord)
    (h : formatEventRecord e now = Except.ok r) :
    ((recordEntries r).map Prod.fst
      = [ "Timestamp" ]
        ++ (if r.traceId.isSome then [ "TraceId" ] else [])
        ++ (if r.spanId.isSome then [ "SpanId" ] else [])
        ++ [ "severity", "SeverityText", "SeverityNumber", "Body", "Attributes" ])
    ∧ (∀ t, r.traceId = some t →
        ((recordEntries r).find? (fun p => p.1 == "TraceId")).map (fun p => p.2)
          = some ("\"" ++ hexPad 32 t ++ "\"")
        ∧ (t < 2 ^ 128 → (hexPad 32 t).length = 32)
        ∧ (∀ c ∈ (hexPad 32 t).data, c ∈ hexCharList))
    ∧ (r.traceId = none → (recordEntries r).find? (fun p => p.1 == "TraceId") = none)
    ∧ (∀ sid, r.spanId = some sid →
        ((recordEntries r).find? (fun p => p.1 == "SpanId")).map (fun p => p.2)
          = some ("\"" ++ hexPad 16 sid ++ "\"")
        ∧ (sid < 2 ^ 64 → (hexPad 16 sid).length = 16)
        ∧ (∀ c ∈ (hexPad 16 sid).data, c ∈ hexCharList))
    ∧ (r.spanId = none → (recordEntries r).find? (fun p => p.1 == "SpanId") = none)
    ∧ ((recordEntries r).find? (fun p => p.1 == "severity")).map (fun p => p.2)
        = ((recordEntries r).find? (fun p => p.1 == "SeverityText")).map (fun p => p.2)
    ∧ formatEvent e now = Except.ok (renderLine r)
    ∧ (∃ s0 : String, renderLine r = s0 ++ "\n" ∧ NLFree s0) := by
  have h16 : (16 : Nat) ^ 32 = 2 ^ 128 := by norm_num
  have h16b : (16 : Nat) ^ 16 = 2 ^ 64 := by norm_num
  refine ⟨?_, ?_, ?_, ?_, ?_, ?_, ?_, ?_⟩
  · rcases htr : r.traceId with _ | t <;> rcases hsp : r.spanId with _ | sid <;>
      simp [recordEntries, htr, hsp]
  · intro t ht
    refine ⟨?_, ?_, hexPad_mem 32 t⟩
    · simp only [recordEntries, ht]
      rfl
    · intro hlt
      exact hexPad_length 32 t (by omega) (by rw [h16]; exact hlt)
  · intro ht
    rcases hsp : r.spanId with _ | sid <;> simp only [recordEntries, ht, hsp] <;> rfl
  · intro sid hsid
    refine ⟨?_, ?_, hexPad_mem 16 sid⟩
    · rcases htr : r.traceId with _ | t <;> simp only [recordEntries, hsid, htr] <;> rfl
    · intro hlt
      exact hexPad_length 16 sid (by omega) (by rw [h16b]; exact hlt)
  · intro hsid
    rcases htr : r.traceId with _ | t <;> simp only [recordEntries, hsid, htr] <;> rfl
  · rcases htr : r.traceId with _ | t <;> rcases hsp : r.spanId with _ | sid <;>
      simp only [recordEntries, htr, hsp] <;> rfl
  · unfold formatEvent
    rw [h]
    rfl
  · refine ⟨"\x7b" ++ joinSep ","
      ((recordEntries r).map (fun p => "\"" ++ p.1 ++ "\":" ++ p.2)) ++ "\x7d", rfl, ?_⟩
    refine nlfree_append _ _ (nlfree_append _ _ (by decide) ?_) (by decide)
    refine nlfree_joinSep "," (by decide) _ ?_
    intro x hx
    rw [List.mem_map] at hx
    obtain ⟨p, hp, rfl⟩ := hx
    exact entries_nlfree r p hp

/-- C5 witness: with trace id 1 and span id 2 resolved, all eight keys
appear in order and the hex renderings have the exact widths. -/
theorem c5_serialization_witness :
    (recordEntries c5Record).map Prod.fst
      = [ "Timestamp", "TraceId", "SpanId", "severity", "SeverityText", "SeverityNumber",
          "Body", "Attributes" ]
    ∧ (hexPad 32 1).length = 32 ∧ (hexPad 16 2).length = 16 := by
  have h := c5_serialization c5Event 0 c5Record rfl
  refine ⟨h.1.trans rfl, ?_, ?_⟩
  · exact (h.2.1 1 rfl).2.1 (by norm_num)
  · exact (h.2.2.2.1 2 rfl).2.1 (by norm_num)

/-- C6: the formatter's trace-id resolution walks the whole event scope
from the innermost span outward: the record's trace id equals the walk
over the full chain, it is none when no span in the chain carries an
externally-assigned id, and it is the first id encountered walking
outward (not limited to the direct parent). -/
theorem c6_trace_walk (e : EventInput) (now : Int) (r : OtlpRecord)
    (h : formatEventRecord e now = Except.ok r) :
    r.traceId = findTraceId e.chain
    ∧ ((∀ s ∈ e.chain, s.otelTraceId = none) → r.traceId = none)
    ∧ (∀ (pre : List SpanData) (s : SpanData) (post : List SpanData) (t : Nat),
        e.chain = pre ++ s :: post → (∀ p ∈ pre, p.otelTraceId = none) →
        s.otelTraceId = some t → r.traceId = some t) := by
  have htr := (formatEventRecord_ok e now r h).2.1
  refine ⟨htr, ?_, ?_⟩
  · intro hall
    rw [htr]
    exact (findTraceId_eq_none_iff e.chain).mpr hall
  · intro pre s post t hchain hpre hs
    rw [htr, hchain]
    exact findTraceId_first pre s post t hpre hs

/-- C6 witness: for an event nested below an id-less direct span whose
outer span carries trace id 1, the record resolves trace id 1. -/
theorem c6_trace_walk_witness : c6Record.traceId = some 1 :=
  (c6_trace_walk c6Event 0 c6Record rfl).2.2 [ c3NoneSpan ] c3Inner [] 1 rfl
    (by
      intro p hp
      rw [List.mem_singleton] at hp
      subst hp
      rfl)
    rfl

/-- C7: the span-id resolution prefers the externally-assigned span id
stored in the resolved enclosing span's extension and falls back to that
same span's process-local numeric handle; with no enclosing span (no
explicit parent and no contextual span) no span id is produced. -/
theorem c7_span_id (e : EventInput) (now : Int) (r : OtlpRecord)
    (h : formatEventRecord e now = Except.ok r) :
    (e.explicitParent = none → e.currentSpan = none → r.spanId = none)
    ∧ (∀ s : SpanData,
        e.explicitParent = some s ∨ (e.explicitParent = none ∧ e.currentSpan = some s) →
        (∀ sid, s.otelSpanId = some sid → r.spanId = some sid)
        ∧ (s.otelSpanId = none → r.spanId = some s.handle)) := by
  have hsp := (formatEventRecord_ok e now r h).2.2.1
  refine ⟨?_, ?_⟩
  · intro h1 h2
    rw [hsp]
    unfold findSpanId resolveSpan
    rw [h1, h2]
    rfl
  · intro s hs
    have hres : resolveSpan e = some s := by
      unfold resolveSpan
      rcases hs with hs | ⟨hs1, hs2⟩
      · rw [hs]
      · rw [hs1, hs2]
    constructor
    · intro sid hsid
      rw [hsp]
      unfold findSpanId
      rw [hres]
      simp [hsid]
    · intro hnone
      rw [hsp]
      unfold findSpanId
      rw [hres]
      simp [hnone]

/-- C7 witness: with the enclosing span carrying externally-assigned
span id 2 and handle 5, the record resolves span id 2. -/
theorem c7_span_id_witness : c7Record.spanId = some 2 :=
  ((c7_span_id c7Event 0 c7Record rfl).2 c7Span (Or.inl rfl)).1 2 rfl

end CliBatteries
